import Mathlib

/-!
Verification of the `FirmwareUpdater` component of `embassy-boot`
(`src/embassy-boot/boot/src/firmware_updater.rs`).

The flash device is modelled as a flat byte array (`List Nat`), and every
operation additionally records the flash operations it performs as a trace
(`List FlashOp`), so that statements about "no writes", "exact operation
order" and "power loss after a prefix of the operations" can be made
precisely.  The `Partition` collaborator, the magic constants, the `State`
enum and the `FirmwareWriter` live outside the given source tree, so they
are modelled from the spec (each such definition says so in its doc
comment).  Everything from `firmware_updater.rs` itself is translated
directly from that file.
-/

namespace Embassy

/-- Modelled from the spec (glossary, §4.2): the blank value a NOR flash
byte takes after an erase ("reset to its blank value"). -/
def ERASED : Nat := 255

/-- Read `len` bytes of the flash contents starting at absolute address
`addr`. -/
def readBytes (flash : List Nat) (addr len : Nat) : List Nat :=
  (flash.drop addr).take len

/-- Overwrite the flash contents at absolute address `addr` with `data`. -/
def writeBytes (flash : List Nat) (addr : Nat) (data : List Nat) : List Nat :=
  flash.take addr ++ data ++ flash.drop (addr + data.length)

/-- Erase the byte range `[a, b)` of the flash contents: every byte in the
range becomes `ERASED`. -/
def eraseBytes (flash : List Nat) (a b : Nat) : List Nat :=
  flash.take a ++ List.replicate (b - a) ERASED ++ flash.drop b

/-- One primitive flash-device operation, recorded in the trace of each
`FirmwareUpdater` operation. -/
inductive FlashOp where
  | readOp (addr len : Nat)
  | writeOp (addr : Nat) (data : List Nat)
  | eraseOp (a b : Nat)
  deriving DecidableEq, Repr

/-- Whether a flash operation mutates the device (a write or an erase, as
opposed to a read). -/
def FlashOp.isMutation : FlashOp → Bool
  | .readOp _ _ => false
  | .writeOp _ _ => true
  | .eraseOp _ _ => true

/-- Effect of a single flash operation on the device contents. -/
def applyOp (flash : List Nat) : FlashOp → List Nat
  | .readOp _ _ => flash
  | .writeOp a d => writeBytes flash a d
  | .eraseOp a b => eraseBytes flash a b

/-- Effect of a sequence of flash operations, first to last; applying a
proper prefix of an operation trace models power loss at that point. -/
def applyOps (flash : List Nat) (ops : List FlashOp) : List Nat :=
  ops.foldl applyOp flash

/-- Partition descriptor (spec §3): an immutable window `[from', to')`
into a flash device's address space.  Modelled from the spec: the
`Partition` type is defined outside the given source file. -/
structure Partition where
  from' : Nat
  to' : Nat
  deriving DecidableEq, Repr

/-- Length of a partition window. -/
def Partition.len (p : Partition) : Nat := p.to' - p.from'

/-- Modelled from the spec (§6, partition collaborator contract): read
`len` bytes at partition-relative `offset` into the caller's buffer. -/
def Partition.read (p : Partition) (flash : List Nat) (offset len : Nat) :
    List Nat × FlashOp :=
  (readBytes flash (p.from' + offset) len, .readOp (p.from' + offset) len)

/-- Modelled from the spec (§6): write the buffer at partition-relative
`offset`. -/
def Partition.write (p : Partition) (flash : List Nat) (offset : Nat)
    (data : List Nat) : List Nat × FlashOp :=
  (writeBytes flash (p.from' + offset) data, .writeOp (p.from' + offset) data)

/-- Modelled from the spec (§6): erase the partition-relative byte range
`[a, b)`. -/
def Partition.erase (p : Partition) (flash : List Nat) (a b : Nat) :
    List Nat × FlashOp :=
  (eraseBytes flash (p.from' + a) (p.from' + b), .eraseOp (p.from' + a) (p.from' + b))

/-- Modelled from the spec (§6): erase the whole partition. -/
def Partition.wipe (p : Partition) (flash : List Nat) : List Nat × FlashOp :=
  p.erase flash 0 p.len

/-- Modelled from the spec (§6, Duality): the blocking form of the
partition collaborator's read; behaviorally identical to the suspending
form by the collaborator's contract. -/
def Partition.read_blocking (p : Partition) (flash : List Nat) (offset len : Nat) :
    List Nat × FlashOp :=
  (readBytes flash (p.from' + offset) len, .readOp (p.from' + offset) len)

/-- Modelled from the spec (§6, Duality): blocking form of `write`. -/
def Partition.write_blocking (p : Partition) (flash : List Nat) (offset : Nat)
    (data : List Nat) : List Nat × FlashOp :=
  (writeBytes flash (p.from' + offset) data, .writeOp (p.from' + offset) data)

/-- Modelled from the spec (§6, Duality): blocking form of `erase`. -/
def Partition.erase_blocking (p : Partition) (flash : List Nat) (a b : Nat) :
    List Nat × FlashOp :=
  (eraseBytes flash (p.from' + a) (p.from' + b), .eraseOp (p.from' + a) (p.from' + b))

/-- Modelled from the spec (§6, Duality): blocking form of `wipe`. -/
def Partition.wipe_blocking (p : Partition) (flash : List Nat) : List Nat × FlashOp :=
  p.erase_blocking flash 0 p.len

/-- Boot state enumeration (spec §3).  Modelled from the spec: the `State`
type is defined outside the given source file. -/
inductive State where
  | Boot
  | Swap
  deriving DecidableEq, Repr

/-- Modelled from the spec (§3): the reserved sentinel byte confirming the
running image; distinct from `SWAP_MAGIC`, from zero and from the erased
blank value.  The concrete value is the bootloader's. -/
def BOOT_MAGIC : Nat := 214

/-- Modelled from the spec (§3): the reserved sentinel byte requesting a
swap on next boot; distinct from `BOOT_MAGIC`, from zero and from the
erased blank value.  The concrete value is the bootloader's. -/
def SWAP_MAGIC : Nat := 240

/-- Errors returned by `FirmwareUpdater` (source lines 6–13).  The payloads
(the device's native error kind, the backend's signature error) are opaque
external types (spec §7) and are omitted here; the fault-free device model
never produces a `Flash` error. -/
inductive FirmwareUpdaterError where
  | Flash
  | Signature
  deriving DecidableEq, Repr

/-- Modelled from the spec (§2, §6): the firmware-writer collaborator is a
thin wrapper around the dfu partition; `FirmwareWriter(self.dfu)` in the
source. -/
structure FirmwareWriter where
  part : Partition
  deriving DecidableEq, Repr

/-- Outcome of one embedded operation: a fatal assertion failure (a Rust
panic), a success value, or a returned error. -/
inductive Ret (α : Type) where
  | panicked
  | ok (a : α)
  | err (e : FirmwareUpdaterError)
  deriving DecidableEq, Repr

/-- `FirmwareUpdater` (source lines 36–39): the handle owning the state and
dfu partition descriptors. -/
structure FirmwareUpdater where
  state : Partition
  dfu : Partition
  deriving DecidableEq, Repr

/-- Constructor `FirmwareUpdater::new(dfu, state)` (source lines 71–73). -/
def FirmwareUpdater.new (dfu state : Partition) : FirmwareUpdater :=
  ⟨state, dfu⟩

/-- `firmware_len` (source lines 76–78): length of the DFU area. -/
def firmware_len (fu : FirmwareUpdater) : Nat :=
  fu.dfu.len

/-- `get_state` (source lines 85–97): read the first `buflen` bytes of the
state partition into the caller's aligned buffer; `Swap` when no byte
differs from `SWAP_MAGIC`, else `Boot`.  `buflen` is the length of the
caller's `aligned` buffer.  Returns the final flash contents, the trace of
flash operations, and the result. -/
def get_state (fu : FirmwareUpdater) (flash : List Nat) (buflen : Nat) :
    List Nat × List FlashOp × Ret State :=
  let r := fu.state.read flash 0 buflen
  if !(r.1.any fun b => b != SWAP_MAGIC) then
    (flash, [r.2], .ok .Swap)
  else
    (flash, [r.2], .ok .Boot)

/-- `set_magic` (source lines 214–232): read the current first block; if
any byte differs from the target magic, write an all-zero block at offset
0, wipe the state partition, then write an all-magic block at offset 0.
The caller's `aligned` buffer has length `buflen`; `aligned.fill(0)` and
`aligned.fill(magic)` become `List.replicate buflen _`. -/
def set_magic (fu : FirmwareUpdater) (buflen magic : Nat) (flash : List Nat) :
    List Nat × List FlashOp × Ret Unit :=
  let r := fu.state.read flash 0 buflen
  if r.1.any (fun b => b != magic) then
    let w1 := fu.state.write flash 0 (List.replicate buflen 0)
    let e1 := fu.state.wipe w1.1
    let w2 := fu.state.write e1.1 0 (List.replicate buflen magic)
    (w2.1, [r.2, w1.2, e1.2, w2.2], .ok ())
  else
    (flash, [r.2], .ok ())

/-- `mark_updated` (source lines 191–198): assert the aligned buffer length
equals the device's write granularity `writeSize`, then `set_magic` with
`SWAP_MAGIC`. -/
def mark_updated (fu : FirmwareUpdater) (writeSize buflen : Nat)
    (flash : List Nat) : List Nat × List FlashOp × Ret Unit :=
  if buflen = writeSize then
    set_magic fu buflen SWAP_MAGIC flash
  else
    (flash, [], .panicked)

/-- `mark_booted` (source lines 205–212): assert the aligned buffer length
equals the device's write granularity, then `set_magic` with `BOOT_MAGIC`. -/
def mark_booted (fu : FirmwareUpdater) (writeSize buflen : Nat)
    (flash : List Nat) : List Nat × List FlashOp × Ret Unit :=
  if buflen = writeSize then
    set_magic fu buflen BOOT_MAGIC flash
  else
    (flash, [], .panicked)

/-- Digest loop of `verify_and_mark_updated` (source lines 139–143): for
`offset in (0..updateLen).step_by(buflen)`, read a `buflen`-byte block of
the dfu partition at `offset` and feed the first
`min (updateLen - offset) buflen` bytes of it to the digest.  Returns the
concatenation of the fed bytes and the trace of reads.  `fuel` bounds the
number of iterations for structural recursion; `updateLen` iterations
always suffice when `buflen > 0`. -/
def digest_loop (dfu : Partition) (flash : List Nat) (updateLen buflen : Nat) :
    Nat → Nat → List Nat × List FlashOp
  | _, 0 => ([], [])
  | offset, fuel + 1 =>
    if offset < updateLen then
      let r := dfu.read flash offset buflen
      let len := min (updateLen - offset) buflen
      let rest := digest_loop dfu flash updateLen buflen (offset + buflen) fuel
      (r.1.take len ++ rest.1, r.2 :: rest.2)
    else
      ([], [])

/-- `verify_and_mark_updated` (source lines 116–183): assert the aligned
buffer length equals the write granularity and `updateLen ≤ dfu.len`;
stream the first `updateLen` bytes of the dfu partition through the
digest; on verifier rejection return a `Signature` error, on acceptance
`set_magic` with `SWAP_MAGIC`.  The pluggable backend (spec §2, §6) is the
parameter `verifier`, taking the public key, the signature and the
streamed message; key/signature parsing failures and digest mismatches
are collapsed into rejection, all of which the source maps to a
`Signature` error before any state-partition operation.  A zero stride
would make the source's `step_by` panic, hence the `buflen = 0` branch. -/
def verify_and_mark_updated
    (verifier : List Nat → List Nat → List Nat → Bool)
    (fu : FirmwareUpdater) (pk sig : List Nat) (updateLen writeSize buflen : Nat)
    (flash : List Nat) : List Nat × List FlashOp × Ret Unit :=
  if buflen = writeSize then
    if updateLen ≤ fu.dfu.len then
      if buflen = 0 then
        (flash, [], .panicked)
      else
        let d := digest_loop fu.dfu flash updateLen buflen 0 updateLen
        if verifier pk sig d.1 then
          let r := set_magic fu buflen SWAP_MAGIC flash
          (r.1, d.2 ++ r.2.1, r.2.2)
        else
          (flash, d.2, .err .Signature)
    else
      (flash, [], .panicked)
  else
    (flash, [], .panicked)

/-- Modelled from the spec (§2, §6): `FirmwareWriter::write_block` writes
the byte stream into the partition at `offset` in `blockSize`-aligned
chunks; its net effect is the data written at that offset, recorded here
as one write operation. -/
def write_block (p : Partition) (flash : List Nat) (offset : Nat)
    (data : List Nat) (blockSize : Nat) : List Nat × FlashOp :=
  p.write flash offset data

/-- `write_firmware` (source lines 241–259): assert `data.length` is at
least one erase unit `eraseSize`, erase `[offset, offset + data.length)`
of the dfu partition, then write `data` through the firmware writer. -/
def write_firmware (fu : FirmwareUpdater) (eraseSize offset : Nat)
    (data : List Nat) (blockSize : Nat) (flash : List Nat) :
    List Nat × List FlashOp × Ret Unit :=
  if eraseSize ≤ data.length then
    let e := fu.dfu.erase flash offset (offset + data.length)
    let w := write_block fu.dfu e.1 offset data blockSize
    (w.1, [e.2, w.2], .ok ())
  else
    (flash, [], .panicked)

/-- `prepare_update` (source lines 266–273): wipe the entire dfu partition
and return a `FirmwareWriter` bound to it. -/
def prepare_update (fu : FirmwareUpdater) (flash : List Nat) :
    List Nat × List FlashOp × Ret FirmwareWriter :=
  let e := fu.dfu.wipe flash
  (e.1, [e.2], .ok ⟨fu.dfu⟩)

/-- `get_state_blocking` (source lines 284–296): blocking form of
`get_state`, translated from its own source text. -/
def get_state_blocking (fu : FirmwareUpdater) (flash : List Nat) (buflen : Nat) :
    List Nat × List FlashOp × Ret State :=
  let r := fu.state.read_blocking flash 0 buflen
  if !(r.1.any fun b => b != SWAP_MAGIC) then
    (flash, [r.2], .ok .Swap)
  else
    (flash, [r.2], .ok .Boot)

/-- `set_magic_blocking` (source lines 414–432): blocking form of
`set_magic`, translated from its own source text. -/
def set_magic_blocking (fu : FirmwareUpdater) (buflen magic : Nat)
    (flash : List Nat) : List Nat × List FlashOp × Ret Unit :=
  let r := fu.state.read_blocking flash 0 buflen
  if r.1.any (fun b => b != magic) then
    let w1 := fu.state.write_blocking flash 0 (List.replicate buflen 0)
    let e1 := fu.state.wipe_blocking w1.1
    let w2 := fu.state.write_blocking e1.1 0 (List.replicate buflen magic)
    (w2.1, [r.2, w1.2, e1.2, w2.2], .ok ())
  else
    (flash, [r.2], .ok ())

/-- `mark_updated_blocking` (source lines 391–398). -/
def mark_updated_blocking (fu : FirmwareUpdater) (writeSize buflen : Nat)
    (flash : List Nat) : List Nat × List FlashOp × Ret Unit :=
  if buflen = writeSize then
    set_magic_blocking fu buflen SWAP_MAGIC flash
  else
    (flash, [], .panicked)

/-- `mark_booted_blocking` (source lines 405–412). -/
def mark_booted_blocking (fu : FirmwareUpdater) (writeSize buflen : Nat)
    (flash : List Nat) : List Nat × List FlashOp × Ret Unit :=
  if buflen = writeSize then
    set_magic_blocking fu buflen BOOT_MAGIC flash
  else
    (flash, [], .panicked)

/-- `verify_and_mark_updated_blocking` (source lines 315–383): same
algorithm as the asynchronous form, but its capacity assertion is written
`dfu.from + updateLen ≤ dfu.to` in the source (line 327) instead of
`updateLen ≤ dfu.len`. -/
def verify_and_mark_updated_blocking
    (verifier : List Nat → List Nat → List Nat → Bool)
    (fu : FirmwareUpdater) (pk sig : List Nat) (updateLen writeSize buflen : Nat)
    (flash : List Nat) : List Nat × List FlashOp × Ret Unit :=
  if buflen = writeSize then
    if fu.dfu.from' + updateLen ≤ fu.dfu.to' then
      if buflen = 0 then
        (flash, [], .panicked)
      else
        let d := digest_loop fu.dfu flash updateLen buflen 0 updateLen
        if verifier pk sig d.1 then
          let r := set_magic_blocking fu buflen SWAP_MAGIC flash
          (r.1, d.2 ++ r.2.1, r.2.2)
        else
          (flash, d.2, .err .Signature)
    else
      (flash, [], .panicked)
  else
    (flash, [], .panicked)

/-- `write_firmware_blocking` (source lines 441–456). -/
def write_firmware_blocking (fu : FirmwareUpdater) (eraseSize offset : Nat)
    (data : List Nat) (blockSize : Nat) (flash : List Nat) :
    List Nat × List FlashOp × Ret Unit :=
  if eraseSize ≤ data.length then
    let e := fu.dfu.erase_blocking flash offset (offset + data.length)
    let w := write_block fu.dfu e.1 offset data blockSize
    (w.1, [e.2, w.2], .ok ())
  else
    (flash, [], .panicked)

/-- `prepare_update_blocking` (source lines 463–470). -/
def prepare_update_blocking (fu : FirmwareUpdater) (flash : List Nat) :
    List Nat × List FlashOp × Ret FirmwareWriter :=
  let e := fu.dfu.wipe_blocking flash
  (e.1, [e.2], .ok ⟨fu.dfu⟩)

/-! Helper lemmas about the flash model. -/

theorem length_readBytes (flash : List Nat) (addr len : Nat)
    (h : addr + len ≤ flash.length) :
    (readBytes flash addr len).length = len := by
  simp only [readBytes, List.length_take, List.length_drop]
  omega

theorem length_writeBytes (flash : List Nat) (addr : Nat) (data : List Nat)
    (h : addr + data.length ≤ flash.length) :
    (writeBytes flash addr data).length = flash.length := by
  simp only [writeBytes, List.length_append, List.length_take, List.length_drop]
  omega

theorem length_eraseBytes (flash : List Nat) (a b : Nat)
    (hab : a ≤ b) (hb : b ≤ flash.length) :
    (eraseBytes flash a b).length = flash.length := by
  simp only [eraseBytes, List.length_append, List.length_take, List.length_drop,
    List.length_replicate]
  omega

theorem readBytes_writeBytes_self (flash : List Nat) (addr : Nat) (data : List Nat)
    (h : addr ≤ flash.length) :
    readBytes (writeBytes flash addr data) addr data.length = data := by
  unfold readBytes writeBytes
  have h1 : (flash.take addr).length = addr := by
    simp only [List.length_take]
    omega
  rw [List.append_assoc, List.drop_append_eq_append_drop, h1,
    List.drop_eq_nil_of_le (by rw [h1]), Nat.sub_self, List.drop_zero,
    List.nil_append]
  exact List.take_left data _

theorem readBytes_eraseBytes_self (flash : List Nat) (a b n : Nat)
    (ha : a ≤ flash.length) (hn : n ≤ b - a) :
    readBytes (eraseBytes flash a b) a n = List.replicate n ERASED := by
  unfold readBytes eraseBytes
  have h1 : (flash.take a).length = a := by
    simp only [List.length_take]
    omega
  rw [List.append_assoc, List.drop_append_eq_append_drop, h1,
    List.drop_eq_nil_of_le (by rw [h1]), Nat.sub_self, List.drop_zero,
    List.nil_append, List.take_append_eq_append_take, List.take_replicate,
    List.length_replicate]
  have h2 : n - (b - a) = 0 := by omega
  have h3 : n ⊓ (b - a) = n := by omega
  rw [h2, h3, List.take_zero, List.append_nil]

theorem all_beq_eq_not_any_bne (l : List Nat) (m : Nat) :
    (l.all fun b => b == m) = !(l.any fun b => b != m) := by
  induction l with
  | nil => rfl
  | cons a l ih =>
    simp only [List.all_cons, List.any_cons, Bool.not_or, bne, Bool.not_not, ih]

/-! Lemmas characterizing `set_magic`. -/

theorem set_magic_of_any (fu : FirmwareUpdater) (buflen magic : Nat) (flash : List Nat)
    (h : (readBytes flash fu.state.from' buflen).any (fun b => b != magic) = true) :
    set_magic fu buflen magic flash =
      (writeBytes
        (eraseBytes (writeBytes flash fu.state.from' (List.replicate buflen 0))
          fu.state.from' (fu.state.from' + fu.state.len))
        fu.state.from' (List.replicate buflen magic),
       [.readOp fu.state.from' buflen,
        .writeOp fu.state.from' (List.replicate buflen 0),
        .eraseOp fu.state.from' (fu.state.from' + fu.state.len),
        .writeOp fu.state.from' (List.replicate buflen magic)],
       .ok ()) := by
  simp [set_magic, Partition.read, Partition.write, Partition.wipe, Partition.erase, h]

theorem set_magic_of_all (fu : FirmwareUpdater) (buflen magic : Nat) (flash : List Nat)
    (h : (readBytes flash fu.state.from' buflen).any (fun b => b != magic) = false) :
    set_magic fu buflen magic flash =
      (flash, [.readOp fu.state.from' buflen], .ok ()) := by
  simp [set_magic, Partition.read, h]

theorem set_magic_readBytes (fu : FirmwareUpdater) (buflen magic : Nat) (flash : List Nat)
    (h1 : fu.state.from' + buflen ≤ fu.state.to') (h2 : fu.state.to' ≤ flash.length) :
    readBytes (set_magic fu buflen magic flash).1 fu.state.from' buflen =
      List.replicate buflen magic := by
  cases hany : (readBytes flash fu.state.from' buflen).any (fun b => b != magic) with
  | true =>
    rw [set_magic_of_any fu buflen magic flash hany]
    dsimp only
    have hf1 : (writeBytes flash fu.state.from' (List.replicate buflen 0)).length =
        flash.length :=
      length_writeBytes _ _ _ (by simp only [List.length_replicate]; omega)
    have hf2 : (eraseBytes (writeBytes flash fu.state.from' (List.replicate buflen 0))
        fu.state.from' (fu.state.from' + fu.state.len)).length = flash.length := by
      rw [length_eraseBytes _ _ _ (by omega) (by rw [hf1]; simp only [Partition.len]; omega),
        hf1]
    have := readBytes_writeBytes_self
      (eraseBytes (writeBytes flash fu.state.from' (List.replicate buflen 0))
        fu.state.from' (fu.state.from' + fu.state.len))
      fu.state.from' (List.replicate buflen magic) (by rw [hf2]; omega)
    rwa [List.length_replicate] at this
  | false =>
    rw [set_magic_of_all fu buflen magic flash hany]
    dsimp only
    apply List.eq_replicate_iff.mpr
    refine ⟨length_readBytes _ _ _ (by omega), ?_⟩
    intro b hb
    have := List.any_eq_false.mp hany b hb
    simpa [bne] using this

theorem set_magic_length (fu : FirmwareUpdater) (buflen magic : Nat) (flash : List Nat)
    (h1 : fu.state.from' + buflen ≤ fu.state.to') (h2 : fu.state.to' ≤ flash.length) :
    (set_magic fu buflen magic flash).1.length = flash.length := by
  cases hany : (readBytes flash fu.state.from' buflen).any (fun b => b != magic) with
  | true =>
    rw [set_magic_of_any fu buflen magic flash hany]
    dsimp only
    have hf1 : (writeBytes flash fu.state.from' (List.replicate buflen 0)).length =
        flash.length :=
      length_writeBytes _ _ _ (by simp only [List.length_replicate]; omega)
    have hf2 : (eraseBytes (writeBytes flash fu.state.from' (List.replicate buflen 0))
        fu.state.from' (fu.state.from' + fu.state.len)).length = flash.length := by
      rw [length_eraseBytes _ _ _ (by omega) (by rw [hf1]; simp only [Partition.len]; omega),
        hf1]
    rw [length_writeBytes _ _ _ (by rw [hf2]; simp only [List.length_replicate]; omega), hf2]
  | false =>
    rw [set_magic_of_all fu buflen magic flash hany]

theorem get_state_eq (fu : FirmwareUpdater) (flash : List Nat) (buflen : Nat) :
    get_state fu flash buflen =
      (flash, [.readOp fu.state.from' buflen],
       .ok (if (readBytes flash fu.state.from' buflen).all (fun b => b == SWAP_MAGIC)
         then State.Swap else State.Boot)) := by
  cases hany : (readBytes flash fu.state.from' buflen).any (fun b => b != SWAP_MAGIC) with
  | true => simp [get_state, Partition.read, all_beq_eq_not_any_bne, hany]
  | false => simp [get_state, Partition.read, all_beq_eq_not_any_bne, hany]

theorem get_state_replicate (fu : FirmwareUpdater) (flash : List Nat) (buflen m : Nat)
    (h : readBytes flash fu.state.from' buflen = List.replicate buflen m) :
    get_state fu flash buflen =
      (flash, [.readOp fu.state.from' buflen],
       .ok (if buflen = 0 ∨ m = SWAP_MAGIC then State.Swap else State.Boot)) := by
  rw [get_state_eq, h]
  by_cases hz : buflen = 0 ∨ m = SWAP_MAGIC
  · rcases hz with hz | hz
    · subst hz; simp
    · subst hz; simp [List.all_eq_true]
  · push_neg at hz
    have hfalse : (List.replicate buflen m).all (fun b => b == SWAP_MAGIC) = false := by
      rw [Bool.eq_false_iff]
      intro hall
      rw [List.all_eq_true] at hall
      have hmem : m ∈ List.replicate buflen m := by
        rw [List.mem_replicate]
        exact ⟨hz.1, rfl⟩
      have hm := hall m hmem
      rw [beq_iff_eq] at hm
      exact hz.2 hm
    rw [hfalse]
    simp [hz.1, hz.2]

theorem take_min_append_take (l : List Nat) (r n : Nat) :
    l.take (min r n) ++ (l.drop n).take (r - n) = l.take r := by
  by_cases h : r ≤ n
  · have h1 : min r n = r := by omega
    have h2 : r - n = 0 := by omega
    rw [h1, h2, List.take_zero, List.append_nil]
  · have h1 : min r n = n := by omega
    have h2 : r = n + (r - n) := by omega
    rw [h1]
    conv_rhs => rw [h2]
    rw [List.take_add]

theorem replicate_inj_val (n a b : Nat) (hn : n ≠ 0)
    (h : List.replicate n a = List.replicate n b) : a = b := by
  cases n with
  | zero => exact absurd rfl hn
  | succ k => simpa [List.replicate_succ] using congrArg List.headI h

/-! Lemmas about the digest loop. -/

theorem digest_loop_zero (dfu : Partition) (flash : List Nat)
    (updateLen buflen offset : Nat) :
    digest_loop dfu flash updateLen buflen offset 0 = ([], []) := rfl

theorem digest_loop_succ (dfu : Partition) (flash : List Nat)
    (updateLen buflen offset n : Nat) :
    digest_loop dfu flash updateLen buflen offset (n + 1) =
      if offset < updateLen then
        ((readBytes flash (dfu.from' + offset) buflen).take
            (min (updateLen - offset) buflen) ++
          (digest_loop dfu flash updateLen buflen (offset + buflen) n).1,
         .readOp (dfu.from' + offset) buflen ::
          (digest_loop dfu flash updateLen buflen (offset + buflen) n).2)
      else ([], []) := rfl

theorem digest_loop_fst (dfu : Partition) (flash : List Nat) (updateLen buflen : Nat)
    (hb : 0 < buflen) :
    ∀ fuel offset, updateLen ≤ offset + fuel →
      (digest_loop dfu flash updateLen buflen offset fuel).1 =
        (flash.drop (dfu.from' + offset)).take (updateLen - offset) := by
  intro fuel
  induction fuel with
  | zero =>
    intro offset h
    rw [digest_loop_zero]
    have hz : updateLen - offset = 0 := by omega
    rw [hz, List.take_zero]
  | succ n ih =>
    intro offset h
    rw [digest_loop_succ]
    by_cases hlt : offset < updateLen
    · rw [if_pos hlt]
      dsimp only
      rw [ih (offset + buflen) (by omega)]
      unfold readBytes
      rw [List.take_take]
      have hmin : min (updateLen - offset) buflen ⊓ buflen =
          min (updateLen - offset) buflen := by
        rw [inf_eq_min]
        omega
      rw [hmin]
      have hadd : dfu.from' + (offset + buflen) = dfu.from' + offset + buflen := by omega
      rw [hadd]
      rw [show flash.drop (dfu.from' + offset + buflen) =
            (flash.drop (dfu.from' + offset)).drop buflen from
          (List.drop_drop buflen (dfu.from' + offset) flash).symm]
      have hsub : updateLen - (offset + buflen) = updateLen - offset - buflen := by omega
      rw [hsub]
      exact take_min_append_take _ _ _
    · rw [if_neg hlt]
      dsimp only
      have hz : updateLen - offset = 0 := by omega
      rw [hz, List.take_zero]

theorem digest_loop_reads (dfu : Partition) (flash : List Nat) (updateLen buflen : Nat) :
    ∀ fuel offset,
      ∀ op ∈ (digest_loop dfu flash updateLen buflen offset fuel).2,
        op.isMutation = false := by
  intro fuel
  induction fuel with
  | zero =>
    intro offset op hop
    rw [digest_loop_zero] at hop
    exact absurd hop (List.not_mem_nil op)
  | succ n ih =>
    intro offset op hop
    rw [digest_loop_succ] at hop
    by_cases hlt : offset < updateLen
    · rw [if_pos hlt] at hop
      dsimp only at hop
      rcases List.mem_cons.mp hop with h | h
      · rw [h]
        rfl
      · exact ih (offset + buflen) op h
    · rw [if_neg hlt] at hop
      exact absurd hop (List.not_mem_nil op)

/-! The blocking forms are definitionally the same functions as the
asynchronous ones, except for `verify_and_mark_updated_blocking`, whose
capacity assertion is phrased differently in the source. -/

theorem get_state_blocking_eq (fu : FirmwareUpdater) (flash : List Nat) (buflen : Nat) :
    get_state_blocking fu flash buflen = get_state fu flash buflen := rfl

theorem set_magic_blocking_eq (fu : FirmwareUpdater) (buflen magic : Nat)
    (flash : List Nat) :
    set_magic_blocking fu buflen magic flash = set_magic fu buflen magic flash := rfl

theorem mark_updated_blocking_eq (fu : FirmwareUpdater) (writeSize buflen : Nat)
    (flash : List Nat) :
    mark_updated_blocking fu writeSize buflen flash =
      mark_updated fu writeSize buflen flash := rfl

theorem mark_booted_blocking_eq (fu : FirmwareUpdater) (writeSize buflen : Nat)
    (flash : List Nat) :
    mark_booted_blocking fu writeSize buflen flash =
      mark_booted fu writeSize buflen flash := rfl

theorem write_firmware_blocking_eq (fu : FirmwareUpdater) (eraseSize offset : Nat)
    (data : List Nat) (blockSize : Nat) (flash : List Nat) :
    write_firmware_blocking fu eraseSize offset data blockSize flash =
      write_firmware fu eraseSize offset data blockSize flash := rfl

theorem prepare_update_blocking_eq (fu : FirmwareUpdater) (flash : List Nat) :
    prepare_update_blocking fu flash = prepare_update fu flash := rfl

theorem verify_blocking_eq (verifier : List Nat → List Nat → List Nat → Bool)
    (fu : FirmwareUpdater) (pk sig : List Nat) (updateLen writeSize buflen : Nat)
    (flash : List Nat) (hp : fu.dfu.from' ≤ fu.dfu.to') :
    verify_and_mark_updated_blocking verifier fu pk sig updateLen writeSize buflen flash =
      verify_and_mark_updated verifier fu pk sig updateLen writeSize buflen flash := by
  unfold verify_and_mark_updated_blocking verify_and_mark_updated
  have hcap : (fu.dfu.from' + updateLen ≤ fu.dfu.to') ↔ (updateLen ≤ fu.dfu.len) := by
    unfold Partition.len
    omega
  by_cases hc : fu.dfu.from' + updateLen ≤ fu.dfu.to'
  · rw [if_pos hc, if_pos (hcap.mp hc)]
    rw [set_magic_blocking_eq]
  · rw [if_neg hc, if_neg (fun h => hc (hcap.mpr h))]

theorem set_magic_ret (fu : FirmwareUpdater) (buflen magic : Nat) (flash : List Nat) :
    (set_magic fu buflen magic flash).2.2 = .ok () := by
  cases hany : (readBytes flash fu.state.from' buflen).any (fun b => b != magic) with
  | true => rw [set_magic_of_any fu buflen magic flash hany]
  | false => rw [set_magic_of_all fu buflen magic flash hany]

/-- Concrete fixture used by the witness theorems: state partition `[0, 2)`
and dfu partition `[2, 6)` over a six-byte flash device with write
granularity 2. -/
def fuW : FirmwareUpdater := ⟨⟨0, 2⟩, ⟨2, 6⟩⟩

/-- C3: `get_state` (and `get_state_blocking`) reads exactly the first
`buflen` bytes of the state partition into the caller's buffer, returns
`Swap` when every byte read equals `SWAP_MAGIC` and `Boot` otherwise
(including an erased or arbitrary block), and performs no flash write or
erase: the flash contents are returned unchanged and the trace is one
read. -/
theorem C3_get_state_spec (fu : FirmwareUpdater) (flash : List Nat) (buflen : Nat) :
    get_state fu flash buflen =
      (flash, [.readOp fu.state.from' buflen],
       .ok (if (readBytes flash fu.state.from' buflen).all (fun b => b == SWAP_MAGIC)
         then State.Swap else State.Boot)) ∧
    get_state_blocking fu flash buflen = get_state fu flash buflen ∧
    ∀ op ∈ (get_state fu flash buflen).2.1, op.isMutation = false := by
  refine ⟨get_state_eq fu flash buflen, get_state_blocking_eq fu flash buflen, ?_⟩
  intro op hop
  rw [get_state_eq] at hop
  dsimp only at hop
  rcases List.mem_cons.mp hop with h | h
  · rw [h]
    rfl
  · exact absurd h (List.not_mem_nil op)

/-- C10: `get_state` (and `get_state_blocking`) performs no buffer-length
assertion; with a zero-length buffer it reads zero bytes and returns
`Swap` vacuously, because no byte of the empty block differs from
`SWAP_MAGIC`. -/
theorem C10_get_state_empty (fu : FirmwareUpdater) (flash : List Nat) :
    get_state fu flash 0 = (flash, [.readOp fu.state.from' 0], .ok State.Swap) ∧
    get_state_blocking fu flash 0 =
      (flash, [.readOp fu.state.from' 0], .ok State.Swap) := by
  constructor <;>
    simp [get_state, get_state_blocking, Partition.read, Partition.read_blocking,
      readBytes]

/-- C5: when the first block of the state partition is not entirely the
target magic, `set_magic` (and `set_magic_blocking`) performs exactly the
read followed by the three mutating flash operations, in order: write an
all-zero block at offset 0, erase the whole state partition, write an
all-magic block at offset 0 — and no other operations. -/
theorem C5_set_magic_sequence (fu : FirmwareUpdater) (buflen magic : Nat)
    (flash : List Nat)
    (h : (readBytes flash fu.state.from' buflen).all (fun b => b == magic) = false) :
    (set_magic fu buflen magic flash).2.1 =
      [.readOp fu.state.from' buflen,
       .writeOp fu.state.from' (List.replicate buflen 0),
       .eraseOp fu.state.from' (fu.state.from' + fu.state.len),
       .writeOp fu.state.from' (List.replicate buflen magic)] ∧
    (set_magic fu buflen magic flash).2.1.filter (fun op => op.isMutation) =
      [.writeOp fu.state.from' (List.replicate buflen 0),
       .eraseOp fu.state.from' (fu.state.from' + fu.state.len),
       .writeOp fu.state.from' (List.replicate buflen magic)] ∧
    (set_magic_blocking fu buflen magic flash).2.1 =
      (set_magic fu buflen magic flash).2.1 := by
  have hany : (readBytes flash fu.state.from' buflen).any (fun b => b != magic) = true := by
    rw [all_beq_eq_not_any_bne] at h
    cases hx : (readBytes flash fu.state.from' buflen).any (fun b => b != magic) with
    | true => rfl
    | false => rw [hx] at h; exact absurd h (by decide)
  rw [set_magic_blocking_eq, set_magic_of_any fu buflen magic flash hany]
  exact ⟨rfl, rfl, rfl⟩

/-- Witness for C5 at a concrete input: the state block `[214, 214]` is not
all `SWAP_MAGIC`, and the transition performs exactly read, zero-write,
erase, magic-write. -/
theorem C5_witness :
    (readBytes [214, 214, 9, 9, 9, 9] 0 2).all (fun b => b == 240) = false ∧
    (set_magic fuW 2 240 [214, 214, 9, 9, 9, 9]).2.1 =
      [.readOp 0 2, .writeOp 0 [0, 0], .eraseOp 0 2, .writeOp 0 [240, 240]] :=
  ⟨by decide, (C5_set_magic_sequence fuW 2 240 [214, 214, 9, 9, 9, 9] (by decide)).1⟩

/-- C4: if the first block already consists entirely of the target magic,
`set_magic` succeeds after only the initial read, with zero writes and
erases; and calling the same transition twice yields the same final flash
as calling it once, the second call performing only the read. -/
theorem C4_set_magic_idempotent (fu : FirmwareUpdater) (buflen magic : Nat)
    (flash : List Nat)
    (h1 : fu.state.from' + buflen ≤ fu.state.to') (h2 : fu.state.to' ≤ flash.length) :
    ((readBytes flash fu.state.from' buflen).all (fun b => b == magic) = true →
      set_magic fu buflen magic flash =
        (flash, [.readOp fu.state.from' buflen], .ok ())) ∧
    set_magic fu buflen magic (set_magic fu buflen magic flash).1 =
      ((set_magic fu buflen magic flash).1,
       [.readOp fu.state.from' buflen], .ok ()) := by
  constructor
  · intro hall
    apply set_magic_of_all
    rw [all_beq_eq_not_any_bne] at hall
    cases hx : (readBytes flash fu.state.from' buflen).any (fun b => b != magic) with
    | false => rfl
    | true => rw [hx] at hall; exact absurd hall (by decide)
  · have hpost := set_magic_readBytes fu buflen magic flash h1 h2
    apply set_magic_of_all
    rw [hpost, List.any_eq_false]
    intro x hx
    rw [List.mem_replicate] at hx
    simp [hx.2]

/-- Witness for C4 at a concrete input: with the state block already all
`SWAP_MAGIC`, the transition is a read-only no-op. -/
theorem C4_witness :
    fuW.state.from' + 2 ≤ fuW.state.to' ∧
    fuW.state.to' ≤ ([240, 240, 9, 9, 9, 9] : List Nat).length ∧
    set_magic fuW 2 240 [240, 240, 9, 9, 9, 9] =
      ([240, 240, 9, 9, 9, 9], [.readOp 0 2], .ok ()) :=
  ⟨by decide, by decide,
    (C4_set_magic_idempotent fuW 2 240 [240, 240, 9, 9, 9, 9]
      (by decide) (by decide)).1 (by decide)⟩

/-- C9: for every operation with both forms, the asynchronous and the
blocking form agree on every input: same flash operations, same final
flash contents, same outcome.  The only textual difference in the source
is the capacity assertion of `verify_and_mark_updated_blocking`, which
agrees with the asynchronous one whenever the dfu partition is well-formed
(`from ≤ to`). -/
theorem C9_blocking_equiv (fu : FirmwareUpdater) (hp : fu.dfu.from' ≤ fu.dfu.to') :
    (∀ flash buflen, get_state_blocking fu flash buflen = get_state fu flash buflen) ∧
    (∀ buflen magic flash,
      set_magic_blocking fu buflen magic flash = set_magic fu buflen magic flash) ∧
    (∀ writeSize buflen flash,
      mark_updated_blocking fu writeSize buflen flash =
        mark_updated fu writeSize buflen flash) ∧
    (∀ writeSize buflen flash,
      mark_booted_blocking fu writeSize buflen flash =
        mark_booted fu writeSize buflen flash) ∧
    (∀ verifier pk sig updateLen writeSize buflen flash,
      verify_and_mark_updated_blocking verifier fu pk sig updateLen writeSize buflen flash =
        verify_and_mark_updated verifier fu pk sig updateLen writeSize buflen flash) ∧
    (∀ eraseSize offset data blockSize flash,
      write_firmware_blocking fu eraseSize offset data blockSize flash =
        write_firmware fu eraseSize offset data blockSize flash) ∧
    (∀ flash, prepare_update_blocking fu flash = prepare_update fu flash) :=
  ⟨fun _ _ => rfl, fun _ _ _ => rfl, fun _ _ _ => rfl, fun _ _ _ => rfl,
    fun verifier pk sig updateLen writeSize buflen flash =>
      verify_blocking_eq verifier fu pk sig updateLen writeSize buflen flash hp,
    fun _ _ _ _ _ => rfl, fun _ => rfl⟩

/-- Witness for C9 at a concrete input: both verification forms agree on a
well-formed dfu partition. -/
theorem C9_witness :
    fuW.dfu.from' ≤ fuW.dfu.to' ∧
    verify_and_mark_updated_blocking (fun _ _ _ => false) fuW [] [] 4 2 2
        [240, 240, 1, 2, 3, 4] =
      verify_and_mark_updated (fun _ _ _ => false) fuW [] [] 4 2 2
        [240, 240, 1, 2, 3, 4] :=
  ⟨by decide,
    (C9_blocking_equiv fuW (by decide)).2.2.2.2.1 (fun _ _ _ => false) [] [] 4 2 2
      [240, 240, 1, 2, 3, 4]⟩

/-- C6: round-trip over a fault-free flash device.  Starting from a state
partition whose first block is all `BOOT_MAGIC`, `get_state` reports
`Boot`; after a successful `mark_updated` it reports `Swap`; after a
subsequent successful `mark_booted` it reports `Boot` again. -/
theorem C6_round_trip (fu : FirmwareUpdater) (writeSize buflen : Nat)
    (flash : List Nat)
    (hb : 0 < buflen) (hw : buflen = writeSize)
    (h1 : fu.state.from' + buflen ≤ fu.state.to') (h2 : fu.state.to' ≤ flash.length)
    (hboot : readBytes flash fu.state.from' buflen = List.replicate buflen BOOT_MAGIC) :
    (get_state fu flash buflen).2.2 = .ok State.Boot ∧
    (mark_updated fu writeSize buflen flash).2.2 = .ok () ∧
    (get_state fu (mark_updated fu writeSize buflen flash).1 buflen).2.2 =
      .ok State.Swap ∧
    (mark_booted fu writeSize buflen
      (mark_updated fu writeSize buflen flash).1).2.2 = .ok () ∧
    (get_state fu
      (mark_booted fu writeSize buflen (mark_updated fu writeSize buflen flash).1).1
      buflen).2.2 = .ok State.Boot := by
  have hmu : mark_updated fu writeSize buflen flash =
      set_magic fu buflen SWAP_MAGIC flash := by
    unfold mark_updated
    rw [if_pos hw]
  have hmb : ∀ f, mark_booted fu writeSize buflen f = set_magic fu buflen BOOT_MAGIC f := by
    intro f
    unfold mark_booted
    rw [if_pos hw]
  have hnotswap : ¬(buflen = 0 ∨ BOOT_MAGIC = SWAP_MAGIC) := by
    rintro (h | h)
    · omega
    · exact absurd h (by decide)
  have hlen1 : (set_magic fu buflen SWAP_MAGIC flash).1.length = flash.length :=
    set_magic_length fu buflen SWAP_MAGIC flash h1 h2
  have hpost1 := set_magic_readBytes fu buflen SWAP_MAGIC flash h1 h2
  have hpost2 := set_magic_readBytes fu buflen BOOT_MAGIC
    (set_magic fu buflen SWAP_MAGIC flash).1 h1 (by rw [hlen1]; exact h2)
  refine ⟨?_, ?_, ?_, ?_, ?_⟩
  · rw [get_state_replicate fu flash buflen BOOT_MAGIC hboot]
    dsimp only
    rw [if_neg hnotswap]
  · rw [hmu]
    exact set_magic_ret fu buflen SWAP_MAGIC flash
  · rw [hmu, get_state_replicate fu _ buflen SWAP_MAGIC hpost1]
    dsimp only
    rw [if_pos (Or.inr rfl)]
  · rw [hmu, hmb]
    exact set_magic_ret fu buflen BOOT_MAGIC (set_magic fu buflen SWAP_MAGIC flash).1
  · rw [hmu, hmb, get_state_replicate fu _ buflen BOOT_MAGIC hpost2]
    dsimp only
    rw [if_neg hnotswap]

/-- Witness for C6 at a concrete input: flash pre-loaded with
`BOOT_MAGIC` reports `Boot`. -/
theorem C6_witness :
    0 < 2 ∧
    readBytes [214, 214, 9, 9, 9, 9] fuW.state.from' 2 = List.replicate 2 BOOT_MAGIC ∧
    (get_state fuW [214, 214, 9, 9, 9, 9] 2).2.2 = .ok State.Boot :=
  ⟨by decide, by decide,
    (C6_round_trip fuW 2 2 [214, 214, 9, 9, 9, 9]
      (by decide) rfl (by decide) (by decide) (by decide)).1⟩

/-- C2: crash safety of the magic-word transition.  For power loss injected
after any prefix of the flash-operation sequence of `set_magic`, the first
block of the state partition afterwards reads as the pre-transition value,
an all-zero block, an erased block, or the (completed) target-magic block;
in particular it never reads as any other magic value the flash did not
already hold — so an interrupted transition can never be misread as the
wrong target.  The blocking form issues the identical sequence. -/
theorem C2_crash_safety (fu : FirmwareUpdater) (buflen magic : Nat) (flash : List Nat)
    (hb : 0 < buflen)
    (h1 : fu.state.from' + buflen ≤ fu.state.to') (h2 : fu.state.to' ≤ flash.length) :
    (set_magic_blocking fu buflen magic flash).2.1 =
      (set_magic fu buflen magic flash).2.1 ∧
    ∀ k : Nat,
      (readBytes (applyOps flash ((set_magic fu buflen magic flash).2.1.take k))
          fu.state.from' buflen = readBytes flash fu.state.from' buflen ∨
       readBytes (applyOps flash ((set_magic fu buflen magic flash).2.1.take k))
          fu.state.from' buflen = List.replicate buflen 0 ∨
       readBytes (applyOps flash ((set_magic fu buflen magic flash).2.1.take k))
          fu.state.from' buflen = List.replicate buflen ERASED ∨
       readBytes (applyOps flash ((set_magic fu buflen magic flash).2.1.take k))
          fu.state.from' buflen = List.replicate buflen magic) ∧
      ∀ other : Nat, other ≠ magic → other ≠ 0 → other ≠ ERASED →
        readBytes flash fu.state.from' buflen ≠ List.replicate buflen other →
        readBytes (applyOps flash ((set_magic fu buflen magic flash).2.1.take k))
          fu.state.from' buflen ≠ List.replicate buflen other := by
  have hmain : ∀ k : Nat,
      readBytes (applyOps flash ((set_magic fu buflen magic flash).2.1.take k))
          fu.state.from' buflen = readBytes flash fu.state.from' buflen ∨
      readBytes (applyOps flash ((set_magic fu buflen magic flash).2.1.take k))
          fu.state.from' buflen = List.replicate buflen 0 ∨
      readBytes (applyOps flash ((set_magic fu buflen magic flash).2.1.take k))
          fu.state.from' buflen = List.replicate buflen ERASED ∨
      readBytes (applyOps flash ((set_magic fu buflen magic flash).2.1.take k))
          fu.state.from' buflen = List.replicate buflen magic := by
    intro k
    cases hany : (readBytes flash fu.state.from' buflen).any (fun b => b != magic) with
    | false =>
      rw [set_magic_of_all fu buflen magic flash hany]
      dsimp only
      left
      rcases k with _ | n
      · rfl
      · rw [List.take_of_length_le
          (by simp only [List.length_cons, List.length_nil]; omega)]
        rfl
    | true =>
      have hpost := set_magic_readBytes fu buflen magic flash h1 h2
      rw [set_magic_of_any fu buflen magic flash hany] at hpost ⊢
      dsimp only at hpost ⊢
      rcases k with _ | _ | _ | _ | n
      · left
        rfl
      · left
        rfl
      · right; left
        have hz := readBytes_writeBytes_self flash fu.state.from'
          (List.replicate buflen 0) (by omega)
        rw [List.length_replicate] at hz
        exact hz
      · right; right; left
        show readBytes
            (eraseBytes (writeBytes flash fu.state.from' (List.replicate buflen 0))
              fu.state.from' (fu.state.from' + fu.state.len))
            fu.state.from' buflen = List.replicate buflen ERASED
        apply readBytes_eraseBytes_self
        · rw [length_writeBytes _ _ _
            (by simp only [List.length_replicate]; omega)]
          omega
        · simp only [Partition.len]
          omega
      · right; right; right
        rw [List.take_of_length_le
          (by simp only [List.length_cons, List.length_nil]; omega)]
        exact hpost
  refine ⟨rfl, fun k => ⟨hmain k, ?_⟩⟩
  intro other ho1 ho2 ho3 hpre heq
  rcases hmain k with h | h | h | h
  · rw [h] at heq
    exact hpre heq
  · rw [h] at heq
    exact ho2 (replicate_inj_val buflen 0 other (by omega) heq).symm
  · rw [h] at heq
    exact ho3 (replicate_inj_val buflen ERASED other (by omega) heq).symm
  · rw [h] at heq
    exact ho1 (replicate_inj_val buflen magic other (by omega) heq).symm

/-- Witness for C2 at a concrete input: after the first two operations of
the interrupted transition the block is one of the allowed values. -/
theorem C2_witness :
    0 < 2 ∧
    (readBytes (applyOps [214, 214, 9, 9, 9, 9]
        ((set_magic fuW 2 240 [214, 214, 9, 9, 9, 9]).2.1.take 2)) 0 2 =
          readBytes [214, 214, 9, 9, 9, 9] 0 2 ∨
     readBytes (applyOps [214, 214, 9, 9, 9, 9]
        ((set_magic fuW 2 240 [214, 214, 9, 9, 9, 9]).2.1.take 2)) 0 2 =
          List.replicate 2 0 ∨
     readBytes (applyOps [214, 214, 9, 9, 9, 9]
        ((set_magic fuW 2 240 [214, 214, 9, 9, 9, 9]).2.1.take 2)) 0 2 =
          List.replicate 2 ERASED ∨
     readBytes (applyOps [214, 214, 9, 9, 9, 9]
        ((set_magic fuW 2 240 [214, 214, 9, 9, 9, 9]).2.1.take 2)) 0 2 =
          List.replicate 2 240) :=
  ⟨by decide,
    ((C2_crash_safety fuW 2 240 [214, 214, 9, 9, 9, 9]
      (by decide) (by decide) (by decide)).2 2).1⟩

/-- C7: the bytes fed to the streaming digest by the verification loop are
exactly the first `updateLen` bytes of the dfu partition, whether or not
`updateLen` is a multiple of the stride `buflen`; `updateLen` units of
fuel always complete the loop. -/
theorem C7_digest_stream (fu : FirmwareUpdater) (flash : List Nat)
    (updateLen buflen : Nat) (hb : 0 < buflen) :
    (digest_loop fu.dfu flash updateLen buflen 0 updateLen).1 =
      (flash.drop fu.dfu.from').take updateLen := by
  have h := digest_loop_fst fu.dfu flash updateLen buflen hb updateLen 0 (by omega)
  simpa using h

/-- Witness for C7 at a concrete input: stride 2 over an image of odd
length 3 feeds exactly the three-byte prefix of the dfu partition. -/
theorem C7_witness :
    0 < 2 ∧
    (digest_loop fuW.dfu [1, 2, 3, 4, 5, 6] 3 2 0 3).1 =
      (([1, 2, 3, 4, 5, 6] : List Nat).drop fuW.dfu.from').take 3 :=
  ⟨by decide, C7_digest_stream fuW [1, 2, 3, 4, 5, 6] 3 2 (by decide)⟩

/-- C8: precondition violations are fatal assertions, not error values:
with a buffer length different from the write granularity, `mark_booted`,
`mark_updated` and `verify_and_mark_updated` hit the assertion branch;
`verify_and_mark_updated` also does so when `updateLen` exceeds the dfu
partition length, and `write_firmware` when the data is shorter than one
erase unit.  None of these returns `ok` or `err`. -/
theorem C8_assert_panics (fu : FirmwareUpdater)
    (verifier : List Nat → List Nat → List Nat → Bool) (pk sig : List Nat)
    (writeSize buflen updateLen eraseSize offset blockSize : Nat)
    (data flash : List Nat)
    (hb : buflen ≠ writeSize) (hu : fu.dfu.len < updateLen)
    (hd : data.length < eraseSize) :
    mark_booted fu writeSize buflen flash = (flash, [], .panicked) ∧
    mark_updated fu writeSize buflen flash = (flash, [], .panicked) ∧
    verify_and_mark_updated verifier fu pk sig updateLen writeSize buflen flash =
      (flash, [], .panicked) ∧
    verify_and_mark_updated verifier fu pk sig updateLen writeSize writeSize flash =
      (flash, [], .panicked) ∧
    write_firmware fu eraseSize offset data blockSize flash =
      (flash, [], .panicked) := by
  refine ⟨?_, ?_, ?_, ?_, ?_⟩
  · unfold mark_booted
    rw [if_neg hb]
  · unfold mark_updated
    rw [if_neg hb]
  · unfold verify_and_mark_updated
    rw [if_neg hb]
  · unfold verify_and_mark_updated
    rw [if_pos rfl, if_neg (by omega)]
  · unfold write_firmware
    rw [if_neg (by omega)]

/-- Witness for C8 at a concrete input: a buffer of length 1 against write
granularity 2 makes `mark_booted` hit the assertion branch. -/
theorem C8_witness :
    (1 : Nat) ≠ 2 ∧ fuW.dfu.len < 5 ∧ ([1, 2] : List Nat).length < 3 ∧
    mark_booted fuW 2 1 [0, 0, 0, 0, 0, 0] = ([0, 0, 0, 0, 0, 0], [], .panicked) :=
  ⟨by decide, by decide, by decide,
    (C8_assert_panics fuW (fun _ _ _ => true) [] [] 2 1 5 3 0 0 [1, 2]
      [0, 0, 0, 0, 0, 0] (by decide) (by decide) (by decide)).1⟩

/-- C1: verification gates the swap transition.  Under the preconditions,
if the verifier rejects, `verify_and_mark_updated` returns a `Signature`
error, its trace contains no write or erase (so the flash and hence a
subsequent `get_state` are unchanged); if the verifier accepts, it
performs the `SWAP_MAGIC` transition and a subsequent `get_state` reports
`Swap`.  The blocking form behaves identically. -/
theorem C1_verify_gate (verifier : List Nat → List Nat → List Nat → Bool)
    (fu : FirmwareUpdater) (pk sig : List Nat) (updateLen writeSize buflen : Nat)
    (flash : List Nat)
    (hb : buflen = writeSize) (hw : 0 < writeSize) (hu : updateLen ≤ fu.dfu.len)
    (h1 : fu.state.from' + buflen ≤ fu.state.to') (h2 : fu.state.to' ≤ flash.length)
    (hp : fu.dfu.from' ≤ fu.dfu.to') :
    (verifier pk sig (digest_loop fu.dfu flash updateLen buflen 0 updateLen).1 = false →
      verify_and_mark_updated verifier fu pk sig updateLen writeSize buflen flash =
        (flash, (digest_loop fu.dfu flash updateLen buflen 0 updateLen).2,
         .err .Signature) ∧
      (∀ op ∈ (verify_and_mark_updated verifier fu pk sig updateLen writeSize buflen
          flash).2.1, op.isMutation = false) ∧
      get_state fu
          (verify_and_mark_updated verifier fu pk sig updateLen writeSize buflen
            flash).1 buflen =
        get_state fu flash buflen) ∧
    (verifier pk sig (digest_loop fu.dfu flash updateLen buflen 0 updateLen).1 = true →
      (verify_and_mark_updated verifier fu pk sig updateLen writeSize buflen
        flash).2.2 = .ok () ∧
      (get_state fu
          (verify_and_mark_updated verifier fu pk sig updateLen writeSize buflen
            flash).1 buflen).2.2 = .ok State.Swap) ∧
    verify_and_mark_updated_blocking verifier fu pk sig updateLen writeSize buflen
        flash =
      verify_and_mark_updated verifier fu pk sig updateLen writeSize buflen flash := by
  have hbz : buflen ≠ 0 := by omega
  have hunf : verify_and_mark_updated verifier fu pk sig updateLen writeSize buflen
      flash =
      (if verifier pk sig (digest_loop fu.dfu flash updateLen buflen 0 updateLen).1 then
        ((set_magic fu buflen SWAP_MAGIC flash).1,
         (digest_loop fu.dfu flash updateLen buflen 0 updateLen).2 ++
           (set_magic fu buflen SWAP_MAGIC flash).2.1,
         (set_magic fu buflen SWAP_MAGIC flash).2.2)
      else
        (flash, (digest_loop fu.dfu flash updateLen buflen 0 updateLen).2,
         .err .Signature)) := by
    unfold verify_and_mark_updated
    rw [if_pos hb, if_pos hu, if_neg hbz]
  refine ⟨?_, ?_,
    verify_blocking_eq verifier fu pk sig updateLen writeSize buflen flash hp⟩
  · intro hver
    rw [hunf, if_neg (by rw [hver]; exact Bool.false_ne_true)]
    refine ⟨rfl, ?_, rfl⟩
    intro op hop
    exact digest_loop_reads fu.dfu flash updateLen buflen updateLen 0 op hop
  · intro hver
    rw [hunf, if_pos hver]
    constructor
    · exact set_magic_ret fu buflen SWAP_MAGIC flash
    · have hpost := set_magic_readBytes fu buflen SWAP_MAGIC flash h1 h2
      show (get_state fu (set_magic fu buflen SWAP_MAGIC flash).1 buflen).2.2 =
        .ok State.Swap
      rw [get_state_replicate fu _ buflen SWAP_MAGIC hpost]
      dsimp only
      rw [if_pos (Or.inr rfl)]

/-- Witness for C1 at a concrete input: a rejecting verifier leaves the
flash untouched and yields a `Signature` error. -/
theorem C1_witness :
    (2 : Nat) = 2 ∧ 0 < 2 ∧ 4 ≤ fuW.dfu.len ∧
    verify_and_mark_updated (fun _ _ _ => false) fuW [] [] 4 2 2
        [214, 214, 1, 2, 3, 4] =
      ([214, 214, 1, 2, 3, 4],
       (digest_loop fuW.dfu [214, 214, 1, 2, 3, 4] 4 2 0 4).2, .err .Signature) :=
  ⟨rfl, by decide, by decide,
    ((C1_verify_gate (fun _ _ _ => false) fuW [] [] 4 2 2 [214, 214, 1, 2, 3, 4]
      rfl (by decide) (by decide) (by decide) (by decide) (by decide)).1 rfl).1⟩

end Embassy
